import Mathlib

/-!
# Verification of `Discretization` (src/src/discretization.cc)

A shallow embedding of the trajectory-discretization and publishing core of
the repository.  Scalars are modelled as rationals, vectors as lists of
scalars.  External collaborators (the path, the kinematic model with its
synchronized working copy, the center-of-mass computation handles and the
transport layer) are modelled by the interface the core uses, following the
source; publishing is modelled as an ordered trace of (channel, message)
events emitted by one call.
-/

namespace Agimus

/-- Scalars of the embedding (`pinocchio::value_type`, a floating-point type
in the source, modelled as `ℚ`). -/
abbrev Scalar := ℚ

/-- Dense vectors (`pinocchio::vector_t`). -/
abbrev Vec := List Scalar

/-- `Eigen`'s `resize` followed by a full overwrite of the first `n`
entries: the result always has length `n`; entries beyond the input are the
(unspecified, here zero) fresh storage. -/
def resizeVec (x : Vec) (n : Nat) : Vec :=
  x.take n ++ List.replicate (n - x.length) 0

/-- One contiguous row segment of a vector: `len` entries starting at
`off`.  Out-of-range reads (undefined behaviour in the source) are modelled
as zeros so the segment always has length `len`. -/
def segment (x : Vec) (off len : Nat) : Vec :=
  (List.range len).map (fun i => x.getD (off + i) 0)

/-- Embedding of `Eigen::RowBlockIndices` (the indexed row view of the
spec): an ordered list of `(offset, length)` row ranges.

Modelled from the spec: the class itself lives in an external support
library and is not under `src/`; §4.1 of the spec gives its contract —
`addRow` appends a range, finalization (`updateRows`) computes the compacted
size, and extraction gathers the selected rows in the order the ranges were
added. -/
structure RowBlockIndices where
  rows : List (Nat × Nat)
deriving Repr, DecidableEq

/-- A freshly constructed row view selects nothing
(`Eigen::RowBlockIndices()`). -/
def RowBlockIndices.empty : RowBlockIndices := ⟨[]⟩

/-- `addRow(row, size)`: append a `(offset, length)` range. -/
def RowBlockIndices.addRow (v : RowBlockIndices) (off len : Nat) : RowBlockIndices :=
  ⟨v.rows ++ [(off, len)]⟩

/-- `nbIndices()`: the total number of selected rows. -/
def RowBlockIndices.nbIndices (v : RowBlockIndices) : Nat :=
  (v.rows.map Prod.snd).sum

/-- `rview(x)`: gather the selected rows of `x`, range by range, in the
order the ranges were added. -/
def RowBlockIndices.rview (v : RowBlockIndices) (x : Vec) : Vec :=
  (v.rows.map (fun r => segment x r.1 r.2)).flatten

/-- `updateRows<true,true,true>()`: finalization.  Modelled from the spec
(§4.1): it computes the cached compacted size and gather indices and makes
extraction valid; on the ranges themselves (added in joint order, disjoint)
it is the identity. -/
def RowBlockIndices.updateRows (v : RowBlockIndices) : RowBlockIndices := v

/-- The configuration-space types of the kinematic model's joints that the
source distinguishes: the four floating-base Lie-group types tested in
`setJointNames`, and everything else (vector spaces, `SO(3)`, ...),
told apart by an opaque tag. -/
inductive CSpace where
  | SE3
  | R3xSO3
  | SE2
  | R2xSO2
  | Other (tag : Nat)
deriving Repr, DecidableEq

/-- The test on lines 258–261 of `discretization.cc`: the joint's
configuration space equals one of `SE3`, `R3xSO3`, `SE2`, `R2xSO2`. -/
def CSpace.isFloating : CSpace → Bool
  | .SE3 => true
  | .R3xSO3 => true
  | .SE2 => true
  | .R2xSO2 => true
  | .Other _ => false

/-- What the core reads from one joint of the kinematic model. -/
structure Joint where
  rankInConfiguration : Nat
  configSize : Nat
  rankInVelocity : Nat
  numberDof : Nat
  configurationSpace : CSpace
deriving Repr, DecidableEq

/-- A 3-vector of scalars. -/
structure V3 where
  x : Scalar
  y : Scalar
  z : Scalar
deriving Repr, DecidableEq

/-- The scalars of a 3-vector, in order. -/
def V3.toList (v : V3) : Vec := [v.x, v.y, v.z]

/-- A unit quaternion, components `(w, x, y, z)`. -/
structure Quat where
  w : Scalar
  x : Scalar
  y : Scalar
  z : Scalar
deriving Repr, DecidableEq

/-- A rigid placement `pinocchio::SE3`, abstracted by the three
decompositions the source reads from it: the translation, the Euler-angle
decomposition `rotation().eulerAngles(2, 1, 0)` of its rotation (axis
order Z, Y, X), and the quaternion of its rotation.  The trigonometric
decompositions themselves are opaque to the embedding: the model carries
their values. -/
structure SE3 where
  translation : V3
  eulerZYX : V3
  rotQuat : Quat
deriving Repr, DecidableEq

/-- The outcome of the forward-kinematics pass of the synchronized working
copy (`pinocchio::DeviceSync` after `computeFramesForwardKinematics`):
world placements of joints (`oMi`) and frames (`oMf`) and spatial frame
velocities (6 scalars, linear then angular). -/
structure FKData where
  oMi : Nat → SE3
  oMf : Nat → SE3
  frameVelocity : Nat → Vec

/-- The kinematic-model collaborator (`DevicePtr_t device_`), by the
interface the core uses: sizes, named-joint lookup, frame names (a frame's
index is its position in the list), the forward-kinematics pass as a
function of the sampled configuration and velocity, and the two
center-of-mass quantities as functions of a COM handle (identified by a
`Nat`, standing for its address / reference identity) and the sampled
vectors. -/
structure Device where
  configSize : Nat
  numberDof : Nat
  joints : List (String × Joint)
  frameNames : List String
  fk : Vec → Vec → FKData
  comPosition : Nat → Vec → V3
  comJacTimesV : Nat → Vec → Vec → V3

/-- `device_->getJointByName(name)` (the lookup itself lives in the model
collaborator; `none` models the exception it raises on an unknown name). -/
def lookupJoint (d : Device) (name : String) : Option Joint :=
  (d.joints.find? (fun p => p.1 = name)).map Prod.snd

/-- `model.existFrame(name)`. -/
def Device.existFrame (d : Device) (name : String) : Bool :=
  d.frameNames.contains name

/-- `model.getFrameId(name)`. -/
def Device.getFrameId (d : Device) (name : String) : Nat :=
  d.frameNames.indexOf name

/-- The path collaborator (`PathPtr_t`): `eval` returns the configuration
at `t` or fails (`none`), `derivative` returns the derivative of the given
order. -/
structure Path where
  eval : Scalar → Option Vec
  derivative : Scalar → Nat → Vec

/-! ## Computation options

Modelled from the spec: the `ComputationOption` enumeration is declared in
`include/hpp/agimus/discretization.hh`, which is not under `src/`.  §3 of
the spec describes it as a bitmask over exactly three bits — Position,
Derivative, Acceleration — with a fourth named convenience value equal to
`Position | Derivative`. -/

/-- `ComputationOption::Position` (bit 0). -/
def Position : Nat := 1

/-- `ComputationOption::Derivative` (bit 1). -/
def Derivative : Nat := 2

/-- `ComputationOption::Acceleration` (bit 2). -/
def Acceleration : Nat := 4

/-- `ComputationOption::PositionAndDerivative = Position | Derivative`. -/
def PositionAndDerivative : Nat := 3

/-- The computation flags the core passes to a center-of-mass computation
handle (`hpp::pinocchio` computation flags). -/
inductive ComFlag where
  | COM
  | VELOCITY
  | COMPUTE_ALL
deriving Repr, DecidableEq

/-- `Discretization::COM::compute` (lines 50–65): a `switch` on the exact
value of the target's option.  Only the four enumerator values have a
`case`; any other bit combination (such as `Position | Acceleration = 5`)
matches no case and the switch falls through without requesting any
computation — modelled by `none`. -/
def comComputeCall (option : Nat) : Option ComFlag :=
  if option = Position then some .COM
  else if option = Derivative then some .VELOCITY
  else if option = Acceleration then none
  else if option = PositionAndDerivative then some .COMPUTE_ALL
  else none

/-- Whether the flag passed to the COM handle (if any) makes its cached
world position current for this call. -/
def comPositionComputed : Option ComFlag → Bool
  | some .COM => true
  | some .COMPUTE_ALL => true
  | _ => false

/-- Whether the flag passed to the COM handle (if any) makes its cached
jacobian current for this call. -/
def comJacobianComputed : Option ComFlag → Bool
  | some .VELOCITY => true
  | some .COMPUTE_ALL => true
  | _ => false

/-- The output channels of one `Discretization` object.  The three
whole-body publishers are `pubQ`, `pubV`, `pubA`; per-target publishers are
identified by the target's identity key (frame index, COM handle). -/
inductive Channel where
  | wholeQ
  | wholeV
  | wholeA
  | framePose (index : Nat)
  | frameVel (index : Nat)
  | comPos (handle : Nat)
  | comVel (handle : Nat)
deriving Repr, DecidableEq

/-- A published message.  `stale3` is a 3-scalar message whose payload was
read from a cache that no computation of the current call wrote (the
source publishes whatever the COM handle last stored). -/
inductive Msg where
  | vec (data : Vec)
  | transform (translation : V3) (rotation : Quat)
  | vec3 (data : V3)
  | stale3
deriving Repr, DecidableEq

/-- One publish call: the channel and the message it carries. -/
abbrev Event := Channel × Msg

/-- `Discretization::COM`: a registered center-of-mass target.  `com` is
the handle's identity (reference equality in the source); `pubQ` / `pubV`
hold the advertised topic name, `none` before any `advertise`. -/
structure COMTarget where
  com : Nat
  option : Nat
  pubQ : Option String
  pubV : Option String
deriving Repr, DecidableEq

/-- `Discretization::FrameData`: a registered operational-frame target. -/
structure FrameTarget where
  index : Nat
  option : Nat
  pubQ : Option String
  pubV : Option String
deriving Repr, DecidableEq

/-- `Discretization::COM::initPublishers` (lines 67–78): (re)advertise the
channels enabled by the current option under the given topic root and
name. -/
def COMTarget.initPublishers (t : COMTarget) (pfx name : String) : COMTarget :=
  { t with
    pubQ := if t.option &&& Position ≠ 0 then some (pfx ++ "com/" ++ name) else t.pubQ
    pubV := if t.option &&& Derivative ≠ 0 then some (pfx ++ "velocity/com/" ++ name) else t.pubV }

/-- `Discretization::FrameData::initPublishers` (lines 80–91). -/
def FrameTarget.initPublishers (t : FrameTarget) (pfx name : String) : FrameTarget :=
  { t with
    pubQ := if t.option &&& Position ≠ 0 then some (pfx ++ "op_frame/" ++ name) else t.pubQ
    pubV := if t.option &&& Derivative ≠ 0 then some (pfx ++ "velocity/op_frame/" ++ name) else t.pubV }

/-- The mutable state of one `Discretization` object: the collaborator
references, the derived joint-subset data (`hasFreeflyer_`, `qView_`,
`vView_`), the registered targets, the transport handle flag
(`handle_ != NULL`) and the topic root (`topicPrefix_`).  The three
whole-body publishers `pubQ`, `pubV`, `pubA` (advertised by the
transport-initialization call) are carried as their topic names. -/
structure DiscretizationState where
  device : Device
  path : Option Path
  hasFreeflyer : Bool
  qView : RowBlockIndices
  vView : RowBlockIndices
  frames : List FrameTarget
  coms : List COMTarget
  handle : Bool
  topicBase : String
  wbPubQ : Option String
  wbPubV : Option String
  wbPubA : Option String

/-- The errors the source raises, §7 of the spec: `NotConfigured`
(`"Path is not set"`), `EvaluationFailed` (`"Could not evaluate the
path"`), `NotInitialized` (`"Initialize ROS first"`). -/
inductive DError where
  | NotConfigured
  | EvaluationFailed
  | NotInitialized
deriving Repr, DecidableEq

/-- The 6-scalar floating-base prefix of the whole-body position message
(lines 125–130): the world placement of the model's joint 1 (`oMi[1]`),
decomposed as translation then `eulerAngles(2, 1, 0)`; empty when the
freeflyer flag is unset. -/
def ffPosData (hasFF : Bool) (root : SE3) : Vec :=
  if hasFF then root.translation.toList ++ root.eulerZYX.toList else []

/-- The per-frame publish loop (lines 151–175), in registration order. -/
def frameEvents (data : FKData) (frames : List FrameTarget) : List Event :=
  (frames.map (fun f =>
    (if f.option &&& Position ≠ 0 then
      [(Channel.framePose f.index,
        Msg.transform (data.oMf f.index).translation (data.oMf f.index).rotQuat)]
     else []) ++
    (if f.option &&& Derivative ≠ 0 then
      [(Channel.frameVel f.index, Msg.vec (data.frameVelocity f.index))]
     else []))).flatten

/-- The per-COM publish loop (lines 177–197), in registration order: first
`COM::compute` requests the computation selected by the switch, then each
enabled bit publishes — the world position when the Position bit is set,
the jacobian applied to the sampled velocity when the Derivative bit is
set.  A payload whose computation the switch did not request this call is
the stale cached value. -/
def comEvents (dev : Device) (q v : Vec) (coms : List COMTarget) : List Event :=
  (coms.map (fun c =>
    (if c.option &&& Position ≠ 0 then
      [(Channel.comPos c.com,
        if comPositionComputed (comComputeCall c.option) then
          Msg.vec3 (dev.comPosition c.com q)
        else Msg.stale3)]
     else []) ++
    (if c.option &&& Derivative ≠ 0 then
      [(Channel.comVel c.com,
        if comJacobianComputed (comComputeCall c.option) then
          Msg.vec3 (dev.comJacTimesV c.com q v)
        else Msg.stale3)]
     else []))).flatten

/-- `Discretization::compute(time)` (lines 98–202).  Returns the ordered
trace of publish calls the invocation performed together with the raised
error, if any.  The source throws `NotConfigured` when no path is set and
`EvaluationFailed` when the path cannot be evaluated at `time`, both
before any publish; on success it publishes the three whole-body messages
(position with the freeflyer prefix, velocity and acceleration with a
zero-filled prefix) and then the per-frame and per-COM messages. -/
def Discretization.compute (st : DiscretizationState) (time : Scalar) :
    List Event × Option DError :=
  match st.path with
  | none => ([], some .NotConfigured)
  | some p =>
    match p.eval time with
    | none => ([], some .EvaluationFailed)
    | some q0 =>
      let q := resizeVec q0 st.device.configSize
      let v := resizeVec (p.derivative time 1) st.device.numberDof
      let a := resizeVec (p.derivative time 2) st.device.numberDof
      let data := st.device.fk q v
      let sizeFF : Nat := if st.hasFreeflyer then 6 else 0
      let posMsg := ffPosData st.hasFreeflyer (data.oMi 1) ++ st.qView.rview q
      let velMsg := List.replicate sizeFF 0 ++ st.vView.rview v
      let accMsg := List.replicate sizeFF 0 ++ st.vView.rview a
      ((Channel.wholeQ, Msg.vec posMsg) ::
       (Channel.wholeV, Msg.vec velMsg) ::
       (Channel.wholeA, Msg.vec accMsg) ::
       (frameEvents data st.frames ++ comEvents st.device q v st.coms), none)

/-- The loop of `Discretization::addCenterOfMass` (lines 210–215): find
the first registered target holding the same COM handle (pointer
equality), widen its option by bitwise OR and re-advertise its channels
under the given name; `none` when no target holds the handle. -/
def mergeComTarget (pfx name : String) (c option : Nat) :
    List COMTarget → Option (List COMTarget)
  | [] => none
  | t :: rest =>
    if t.com = c then
      some (COMTarget.initPublishers { t with option := t.option ||| option } pfx name :: rest)
    else
      (mergeComTarget pfx name c option rest).map (t :: ·)

/-- `Discretization::addCenterOfMass(name, c, option)` (lines 204–220):
raises `NotInitialized` when no transport handle exists; otherwise merges
into the existing target with the same handle or appends a new one, and
returns `true`. -/
def Discretization.addCenterOfMass (st : DiscretizationState) (name : String)
    (c option : Nat) : Except DError (DiscretizationState × Bool) :=
  if st.handle = false then .error .NotInitialized
  else
    match mergeComTarget st.topicBase name c option st.coms with
    | some coms' => .ok ({ st with coms := coms' }, true)
    | none =>
      .ok ({ st with coms :=
          st.coms ++ [COMTarget.initPublishers ⟨c, option, none, none⟩ st.topicBase name] },
        true)

/-- The loop of `Discretization::addOperationalFrame` (lines 232–237):
find the first registered target with the same resolved frame index,
widen its option by bitwise OR and re-advertise its channels. -/
def mergeFrameTarget (pfx name : String) (index option : Nat) :
    List FrameTarget → Option (List FrameTarget)
  | [] => none
  | t :: rest =>
    if t.index = index then
      some (FrameTarget.initPublishers { t with option := t.option ||| option } pfx name :: rest)
    else
      (mergeFrameTarget pfx name index option rest).map (t :: ·)

/-- `Discretization::addOperationalFrame(name, option)` (lines 222–242):
raises `NotInitialized` when no transport handle exists; returns `false`
leaving the state untouched when the model has no frame of that name;
otherwise resolves the frame index, merges into the existing target with
that index or appends a new one, and returns `true`. -/
def Discretization.addOperationalFrame (st : DiscretizationState) (name : String)
    (option : Nat) : Except DError (DiscretizationState × Bool) :=
  if st.handle = false then .error .NotInitialized
  else if st.device.existFrame name = false then .ok (st, false)
  else
    match mergeFrameTarget st.topicBase name (st.device.getFrameId name) option st.frames with
    | some frames' => .ok ({ st with frames := frames' }, true)
    | none =>
      .ok ({ st with frames :=
          st.frames ++ [FrameTarget.initPublishers
            ⟨st.device.getFrameId name, option, none, none⟩ st.topicBase name] },
        true)

/-- `Discretization::resetTopics()` (lines 244–248): clear both target
lists (destroying their publishers with them). -/
def Discretization.resetTopics (st : DiscretizationState) : DiscretizationState :=
  { st with frames := [], coms := [] }

/-- The loop of `Discretization::setJointNames` (lines 255–272), carried
out name by name: look up the joint; a floating-base configuration space
sets the freeflyer flag and contributes nothing to the views; any other
joint appends its configuration range to the configuration view and its
velocity range to the velocity view.  `none` models the exception a failed
joint lookup raises. -/
def setJointNamesLoop (d : Device) :
    List String → Bool → RowBlockIndices → RowBlockIndices →
    Option (Bool × RowBlockIndices × RowBlockIndices)
  | [], ff, qv, vv => some (ff, qv, vv)
  | name :: rest, ff, qv, vv =>
    match lookupJoint d name with
    | none => none
    | some j =>
      if j.configurationSpace.isFloating then
        setJointNamesLoop d rest true qv vv
      else
        setJointNamesLoop d rest ff
          (qv.addRow j.rankInConfiguration j.configSize)
          (vv.addRow j.rankInVelocity j.numberDof)

/-- `Discretization::setJointNames(names)` (lines 250–275): reset the
freeflyer flag and both row views, run the loop over the names, then
finalize both views. -/
def Discretization.setJointNames (st : DiscretizationState) (names : List String) :
    Option DiscretizationState :=
  match setJointNamesLoop st.device names false RowBlockIndices.empty RowBlockIndices.empty with
  | none => none
  | some (ff, qv, vv) =>
    some { st with hasFreeflyer := ff, qView := qv.updateRows, vView := vv.updateRows }

/-! ## Lock acquisition

The class has a single mutex member `mutex_`.  The following definitions
transcribe, per member function of `discretization.cc`, the
`boost::mutex::scoped_lock` statements its body executes. -/

/-- The mutexes of a `Discretization` object: the single member
`boost::mutex mutex_`. -/
inductive Mutex where
  | stateMutex
deriving Repr, DecidableEq

/-- Locks acquired by `Discretization::compute` (line 100:
`scoped_lock lock(mutex_)` at function entry). -/
def locksOfCompute : List Mutex := [.stateMutex]

/-- Locks acquired by `Discretization::shutdownRos` (lines 304–305: an
early `return` when `handle_` is null precedes the `scoped_lock`). -/
def locksOfShutdownRos (handleSet : Bool) : List Mutex :=
  if handleSet then [.stateMutex] else []

/-- Locks acquired by `Discretization::addCenterOfMass` (lines 204–220:
its body contains no lock statement). -/
def locksOfAddCenterOfMass : List Mutex := []

/-- Locks acquired by `Discretization::addOperationalFrame` (lines
222–242: its body contains no lock statement). -/
def locksOfAddOperationalFrame : List Mutex := []

/-- Locks acquired by `Discretization::resetTopics` (lines 244–248: its
body contains no lock statement). -/
def locksOfResetTopics : List Mutex := []

/-- Locks acquired by `Discretization::setJointNames` (lines 250–275: its
body contains no lock statement). -/
def locksOfSetJointNames : List Mutex := []

/-! ## Derived descriptions of the joint-subset loop -/

/-- The joints the loop of `setJointNames` looks up, in order (`none` when
some name is unknown to the model). -/
def lookupJoints (d : Device) : List String → Option (List Joint)
  | [] => some []
  | n :: rest =>
    match lookupJoint d n with
    | none => none
    | some j => (lookupJoints d rest).map (j :: ·)

/-- The joints of a subset that are not of a floating-base type. -/
def nonFloating (js : List Joint) : List Joint :=
  js.filter (fun j => !j.configurationSpace.isFloating)

/-- The configuration-view ranges `setJointNames` builds for a joint
subset: one `(rankInConfiguration, configSize)` range per non-floating
joint, in order. -/
def qRowsOf (js : List Joint) : List (Nat × Nat) :=
  (nonFloating js).map (fun j => (j.rankInConfiguration, j.configSize))

/-- The velocity-view ranges `setJointNames` builds for a joint subset:
one `(rankInVelocity, numberDof)` range per non-floating joint, in
order. -/
def vRowsOf (js : List Joint) : List (Nat × Nat) :=
  (nonFloating js).map (fun j => (j.rankInVelocity, j.numberDof))

/-! ## Helper lemmas -/

theorem segment_length (x : Vec) (off len : Nat) : (segment x off len).length = len := by
  simp [segment]

theorem RowBlockIndices.rview_length (v : RowBlockIndices) (x : Vec) :
    (v.rview x).length = v.nbIndices := by
  unfold RowBlockIndices.rview RowBlockIndices.nbIndices
  induction v.rows with
  | nil => simp
  | cons r rest ih => simp [ih, segment_length]

/-- In-range extraction: a segment that fits inside the vector is the
corresponding contiguous slice of it. -/
theorem segment_eq_slice (x : Vec) (off len : Nat) (h : off + len ≤ x.length) :
    segment x off len = (x.drop off).take len := by
  apply List.ext_getElem
  · simp only [segment_length, List.length_take, List.length_drop]
    omega
  · intro i h1 h2
    simp only [segment, List.getElem_map, List.getElem_range]
    rw [List.getElem_take, List.getElem_drop, List.getD_eq_getElem]

/-- Bitwise absorption on `Nat`: widening an option mask by OR never
clears a bit. -/
theorem nat_and_or_absorb (a b : Nat) : a &&& (a ||| b) = a := by
  apply Nat.eq_of_testBit_eq
  intro i
  simp only [Nat.testBit_and, Nat.testBit_or]
  cases a.testBit i <;> simp

theorem setJointNamesLoop_eq (d : Device) (names : List String) (ff : Bool)
    (qv vv : RowBlockIndices) :
    setJointNamesLoop d names ff qv vv =
      (lookupJoints d names).map (fun js =>
        (ff || js.any (fun j => j.configurationSpace.isFloating),
         ⟨qv.rows ++ qRowsOf js⟩, ⟨vv.rows ++ vRowsOf js⟩)) := by
  induction names generalizing ff qv vv with
  | nil => simp [setJointNamesLoop, lookupJoints, qRowsOf, vRowsOf, nonFloating]
  | cons n rest ih =>
    cases hj : lookupJoint d n with
    | none => simp [setJointNamesLoop, lookupJoints, hj]
    | some j =>
      cases hf : j.configurationSpace.isFloating with
      | true =>
        simp only [setJointNamesLoop, lookupJoints, hj, hf, if_true, ih]
        cases lookupJoints d rest with
        | none => simp
        | some js => simp [qRowsOf, vRowsOf, nonFloating, hf]
      | false =>
        simp only [setJointNamesLoop, lookupJoints, hj, hf, Bool.false_eq_true, if_false, ih]
        cases lookupJoints d rest with
        | none => simp
        | some js =>
          simp [qRowsOf, vRowsOf, nonFloating, hf, RowBlockIndices.addRow,
            List.append_assoc]

@[simp] theorem COMTarget.initPublishers_com (t : COMTarget) (pfx name : String) :
    (t.initPublishers pfx name).com = t.com := rfl

@[simp] theorem COMTarget.initPublishers_preserves_option (t : COMTarget) (pfx name : String) :
    (t.initPublishers pfx name).option = t.option := rfl

@[simp] theorem FrameTarget.initPublishers_index (t : FrameTarget) (pfx name : String) :
    (t.initPublishers pfx name).index = t.index := rfl

@[simp] theorem FrameTarget.initPublishers_keeps_option (t : FrameTarget) (pfx name : String) :
    (t.initPublishers pfx name).option = t.option := rfl

/-- The merge loop finds nothing when no registered target holds the
handle. -/
theorem mergeComTarget_none (pfx name : String) (c m : Nat) (l : List COMTarget)
    (h : ∀ t ∈ l, t.com ≠ c) : mergeComTarget pfx name c m l = none := by
  induction l with
  | nil => rfl
  | cons t rest ih =>
    simp only [mergeComTarget]
    rw [if_neg (h t (by simp)), ih (fun t' ht' => h t' (by simp [ht']))]
    rfl

/-- Merging into a list whose sole holder of the handle is its last
element widens that element and re-advertises it, leaving the rest
unchanged. -/
theorem mergeComTarget_append_last (pfx name : String) (c m : Nat) (l : List COMTarget)
    (t0 : COMTarget) (h : ∀ t ∈ l, t.com ≠ c) (h0 : t0.com = c) :
    mergeComTarget pfx name c m (l ++ [t0]) =
      some (l ++ [COMTarget.initPublishers { t0 with option := t0.option ||| m } pfx name]) := by
  induction l with
  | nil => simp [mergeComTarget, h0]
  | cons t rest ih =>
    simp only [List.cons_append, mergeComTarget, List.append_eq]
    rw [if_neg (h t (by simp)), ih (fun t' ht' => h t' (by simp [ht']))]
    rfl

/-- Frame variant of `mergeComTarget_none`. -/
theorem mergeFrameTarget_none (pfx name : String) (index m : Nat) (l : List FrameTarget)
    (h : ∀ t ∈ l, t.index ≠ index) : mergeFrameTarget pfx name index m l = none := by
  induction l with
  | nil => rfl
  | cons t rest ih =>
    simp only [mergeFrameTarget]
    rw [if_neg (h t (by simp)), ih (fun t' ht' => h t' (by simp [ht']))]
    rfl

/-- Frame variant of `mergeComTarget_append_last`. -/
theorem mergeFrameTarget_append_last (pfx name : String) (index m : Nat)
    (l : List FrameTarget) (t0 : FrameTarget)
    (h : ∀ t ∈ l, t.index ≠ index) (h0 : t0.index = index) :
    mergeFrameTarget pfx name index m (l ++ [t0]) =
      some (l ++ [FrameTarget.initPublishers { t0 with option := t0.option ||| m } pfx name]) := by
  induction l with
  | nil => simp [mergeFrameTarget, h0]
  | cons t rest ih =>
    simp only [List.cons_append, mergeFrameTarget, List.append_eq]
    rw [if_neg (h t (by simp)), ih (fun t' ht' => h t' (by simp [ht']))]
    rfl

/-- Merging widens: every target of the input list is represented in the
output by a target with the same index whose option retains every bit it
had. -/
theorem mergeFrameTarget_mono (pfx name : String) (index m : Nat)
    (l l' : List FrameTarget) (h : mergeFrameTarget pfx name index m l = some l') :
    ∀ t ∈ l, ∃ t' ∈ l', t'.index = t.index ∧ t.option &&& t'.option = t.option := by
  induction l generalizing l' with
  | nil => cases h
  | cons t rest ih =>
    simp only [mergeFrameTarget] at h
    by_cases hc : t.index = index
    · rw [if_pos hc] at h
      cases h
      intro u hu
      rcases List.mem_cons.mp hu with hu | hu
      · subst hu
        exact ⟨_, List.mem_cons_self _ _, by simp [hc], by simp [nat_and_or_absorb]⟩
      · exact ⟨u, List.mem_cons_of_mem _ hu, rfl, Nat.and_self _⟩
    · rw [if_neg hc] at h
      cases hr : mergeFrameTarget pfx name index m rest with
      | none => rw [hr] at h; cases h
      | some rest' =>
        rw [hr] at h
        cases h
        intro u hu
        rcases List.mem_cons.mp hu with hu | hu
        · subst hu
          exact ⟨u, List.mem_cons_self _ _, rfl, Nat.and_self _⟩
        · obtain ⟨t', ht', hidx, hbit⟩ := ih rest' hr u hu
          exact ⟨t', List.mem_cons_of_mem _ ht', hidx, hbit⟩

/-- Any non-throwing `addOperationalFrame` call only widens: every
previously registered frame target keeps its index and every mode bit it
had. -/
theorem addOperationalFrame_mono (st : DiscretizationState) (name : String) (m : Nat)
    (st' : DiscretizationState) (b : Bool)
    (h : Discretization.addOperationalFrame st name m = .ok (st', b)) :
    ∀ ft ∈ st.frames, ∃ ft' ∈ st'.frames, ft'.index = ft.index ∧
      ft.option &&& ft'.option = ft.option := by
  unfold Discretization.addOperationalFrame at h
  by_cases hh : st.handle = false
  · rw [if_pos hh] at h
    cases h
  · rw [if_neg hh] at h
    by_cases hf : st.device.existFrame name = false
    · rw [if_pos hf] at h
      injection h with h1
      injection h1 with h2 h3
      subst h2
      intro ft hft
      exact ⟨ft, hft, rfl, Nat.and_self _⟩
    · rw [if_neg hf] at h
      cases hm : mergeFrameTarget st.topicBase name (st.device.getFrameId name) m st.frames with
      | some frames' =>
        rw [hm] at h
        injection h with h1
        injection h1 with h2 h3
        subst h2
        exact fun ft hft => mergeFrameTarget_mono _ _ _ _ _ _ hm ft hft
      | none =>
        rw [hm] at h
        injection h with h1
        injection h1 with h2 h3
        subst h2
        intro ft hft
        exact ⟨ft, List.mem_append_left _ hft, rfl, Nat.and_self _⟩

/-- A bit combination absent from a union is absent from each part. -/
theorem nat_and_zero_of_or (a b c : Nat) (h : (a ||| b) &&& c = 0) : a &&& c = 0 := by
  apply Nat.eq_of_testBit_eq
  intro i
  have hi := congrArg (fun n => Nat.testBit n i) h
  simp only [Nat.testBit_and, Nat.testBit_or, Nat.zero_testBit] at hi ⊢
  cases ha : a.testBit i <;> cases hc : c.testBit i <;> simp_all

/-- Full description of `setJointNames`: when every name resolves, the
resulting state differs from the input only in the freeflyer flag (any
looked-up joint of floating type) and the two row views (the ranges of the
non-floating joints, in order). -/
theorem setJointNames_eq (st : DiscretizationState) (names : List String) :
    Discretization.setJointNames st names =
      (lookupJoints st.device names).map (fun js =>
        { st with
          hasFreeflyer := js.any (fun j => j.configurationSpace.isFloating),
          qView := ⟨qRowsOf js⟩, vView := ⟨vRowsOf js⟩ }) := by
  unfold Discretization.setJointNames
  rw [setJointNamesLoop_eq]
  cases lookupJoints st.device names with
  | none => simp
  | some js => simp [RowBlockIndices.updateRows, RowBlockIndices.empty]

theorem ffPosData_length (b : Bool) (root : SE3) :
    (ffPosData b root).length = if b then 6 else 0 := by
  cases b <;> simp [ffPosData, V3.toList]

/-! ## Concrete instances

Small concrete collaborators and states used to instantiate the theorems
below on closed inputs. -/

/-- The identity rotation as a quaternion. -/
def idQuat : Quat := ⟨1, 0, 0, 0⟩

/-- The zero 3-vector. -/
def zeroV3 : V3 := ⟨0, 0, 0⟩

/-- An uninteresting placement. -/
def trivialSE3 : SE3 := ⟨zeroV3, zeroV3, idQuat⟩

/-- A distinctive placement used as the world pose of joint 1. -/
def rootSE3 : SE3 := ⟨⟨5, 6, 7⟩, ⟨11, 12, 13⟩, idQuat⟩

/-- A forward-kinematics outcome distinguishing joint 1 from the rest. -/
def sampleFK : FKData :=
  ⟨fun i => if i = 1 then rootSE3 else trivialSE3,
   fun i => if i = 0 then ⟨⟨8, 9, 10⟩, zeroV3, ⟨0, 1, 0, 0⟩⟩ else trivialSE3,
   fun _ => [1, 2, 3, 4, 5, 6]⟩

/-- A 1-dof joint at rank 0. -/
def jointA : Joint := ⟨0, 1, 0, 1, .Other 0⟩

/-- A 2-dof joint at rank 1. -/
def jointB : Joint := ⟨1, 2, 1, 2, .Other 1⟩

/-- A floating-base joint (`SE3`: 7 configuration entries, 6 dof). -/
def rootJoint : Joint := ⟨0, 7, 0, 6, .SE3⟩

/-- A model with two non-floating joints and two frames. -/
def sampleDevice : Device where
  configSize := 3
  numberDof := 3
  joints := [("A", jointA), ("B", jointB)]
  frameNames := ["base", "tool"]
  fk := fun _ _ => sampleFK
  comPosition := fun c q => ⟨q.getD 0 0, (c : Scalar), 0⟩
  comJacTimesV := fun c _ v => ⟨v.getD 0 0, (c : Scalar), 1⟩

/-- A path defined at `t = 0` only. -/
def samplePath : Path where
  eval := fun t => if t = 0 then some [10, 11, 12] else none
  derivative := fun _ o => [(o : Scalar), 20, 30]

/-- A path whose evaluation always fails. -/
def failPath : Path where
  eval := fun _ => none
  derivative := fun _ _ => []

/-- A configured state over `sampleDevice` with no targets. -/
def sampleState : DiscretizationState where
  device := sampleDevice
  path := some samplePath
  hasFreeflyer := false
  qView := ⟨[(0, 1), (1, 2)]⟩
  vView := ⟨[(0, 1), (1, 2)]⟩
  frames := []
  coms := []
  handle := true
  topicBase := "hpp/"
  wbPubQ := some "hpp/position"
  wbPubV := some "hpp/velocity"
  wbPubA := some "hpp/acceleration"

/-- `sampleState` with its path removed. -/
def noPathState : DiscretizationState := { sampleState with path := none }

/-- `sampleState` with a path that cannot be evaluated. -/
def failPathState : DiscretizationState := { sampleState with path := some failPath }

/-- A model with one floating-base joint and one revolute joint. -/
def ffDevice : Device where
  configSize := 8
  numberDof := 7
  joints := [("root", rootJoint), ("A", ⟨7, 1, 6, 1, .Other 0⟩)]
  frameNames := ["base"]
  fk := fun _ _ => sampleFK
  comPosition := fun _ _ => zeroV3
  comJacTimesV := fun _ _ _ => zeroV3

/-- A path over the 8-dimensional configuration space of `ffDevice`. -/
def ffPath : Path where
  eval := fun t => if t = 0 then some [0, 0, 0, 0, 0, 0, 1, 42] else none
  derivative := fun _ o => List.replicate 7 (o : Scalar)

/-- A configured freeflyer state: the row views select only the revolute
joint. -/
def ffState : DiscretizationState where
  device := ffDevice
  path := some ffPath
  hasFreeflyer := true
  qView := ⟨[(7, 1)]⟩
  vView := ⟨[(6, 1)]⟩
  frames := []
  coms := []
  handle := true
  topicBase := "hpp/"
  wbPubQ := some "hpp/position"
  wbPubV := some "hpp/velocity"
  wbPubA := some "hpp/acceleration"

/-- `sampleState` with one frame target and one COM target registered. -/
def targetsState : DiscretizationState :=
  { sampleState with
    frames := [⟨0, 3, some "hpp/op_frame/base", some "hpp/velocity/op_frame/base"⟩]
    coms := [⟨7, 1, some "hpp/com/c0", none⟩] }

/-- `sampleState` with one COM target whose merged option is
`Position | Acceleration` (for instance after `addCenterOfMass` with
`Position` followed by `addCenterOfMass` on the same handle with
`Acceleration`). -/
def comBugState : DiscretizationState :=
  { sampleState with coms := [⟨0, 5, some "hpp/com/c0", none⟩] }

/-- `sampleState` with one COM target in mode `Position`, for contrast
with `comBugState`. -/
def comOkState : DiscretizationState :=
  { sampleState with coms := [⟨0, 1, some "hpp/com/c0", none⟩] }

/-! ## Claims -/

/-- C1: for every time `t`, `compute(t)` with no path set fails with the
`NotConfigured` error, and with a path that cannot be evaluated at `t` it
fails with the `EvaluationFailed` error; in either case the call performs
no publish at all — no whole-body or per-target channel receives a message
for that call. -/
theorem C1_compute_failure_publishes_nothing (st : DiscretizationState) (t : Scalar) :
    (st.path = none →
      Discretization.compute st t = ([], some DError.NotConfigured)) ∧
    (∀ p, st.path = some p → p.eval t = none →
      Discretization.compute st t = ([], some DError.EvaluationFailed)) := by
  constructor
  · intro h
    simp [Discretization.compute, h]
  · intro p hp he
    simp [Discretization.compute, hp, he]

/-- Witness for C1: a concrete state with no path and a concrete state
whose path fails to evaluate at `t = 0`; both calls publish nothing and
raise the claimed errors. -/
theorem C1_compute_failure_publishes_nothing_witness :
    Discretization.compute noPathState 0 = ([], some DError.NotConfigured) ∧
    Discretization.compute failPathState 0 = ([], some DError.EvaluationFailed) :=
  ⟨(C1_compute_failure_publishes_nothing noPathState 0).1 rfl,
   (C1_compute_failure_publishes_nothing failPathState 0).2 failPath rfl rfl⟩

/-- C5, counterexample: the claim says every reconfiguration call
(`addOperationalFrame`, `addCenterOfMass`, `setJointNames`, `resetTopics`)
acquires the same exclusive lock as `compute`; in the code `compute`
acquires `mutex_` but none of the four reconfiguration calls contains any
lock acquisition. -/
theorem C5_reconfiguration_lock_counterexample :
    Mutex.stateMutex ∈ locksOfCompute ∧
    Mutex.stateMutex ∉ locksOfSetJointNames ∧
    Mutex.stateMutex ∉ locksOfAddOperationalFrame ∧
    Mutex.stateMutex ∉ locksOfAddCenterOfMass ∧
    Mutex.stateMutex ∉ locksOfResetTopics := by decide

/-- C5, amended: only `compute` and teardown (`shutdownRos`, when a
transport handle exists — its early return on a null handle precedes the
lock) acquire the exclusive lock `mutex_`; the four reconfiguration calls
acquire no lock in this translation unit, so this code does not serialize
them against a running `compute`. -/
theorem C5_locking_amended :
    locksOfCompute = [Mutex.stateMutex] ∧
    locksOfShutdownRos true = [Mutex.stateMutex] ∧
    locksOfShutdownRos false = [] ∧
    locksOfAddOperationalFrame = [] ∧
    locksOfAddCenterOfMass = [] ∧
    locksOfSetJointNames = [] ∧
    locksOfResetTopics = [] := by decide

/-- C8: `addOperationalFrame` raises the `NotInitialized` error when the
transport adapter has not been initialized; when the model has no frame of
the given name it returns the failure indicator `false` (not an exception)
with the state — target list and channels — completely unchanged. -/
theorem C8_addOperationalFrame_failure_modes (st : DiscretizationState)
    (name : String) (m : Nat) :
    (st.handle = false →
      Discretization.addOperationalFrame st name m = .error DError.NotInitialized) ∧
    (st.handle = true → st.device.existFrame name = false →
      Discretization.addOperationalFrame st name m = .ok (st, false)) := by
  constructor
  · intro h
    simp [Discretization.addOperationalFrame, h]
  · intro hh hf
    simp [Discretization.addOperationalFrame, hh, hf]

/-- Witness for C8: an uninitialized concrete state raises
`NotInitialized`; an unknown frame name on an initialized state returns
`false` with the state unchanged. -/
theorem C8_addOperationalFrame_failure_modes_witness :
    Discretization.addOperationalFrame { sampleState with handle := false }
      "base" Position = .error DError.NotInitialized ∧
    Discretization.addOperationalFrame sampleState "nosuchframe" Position =
      .ok (sampleState, false) :=
  ⟨(C8_addOperationalFrame_failure_modes { sampleState with handle := false }
      "base" Position).1 rfl,
   (C8_addOperationalFrame_failure_modes sampleState "nosuchframe" Position).2
      rfl (by decide)⟩

/-- C9: `resetTopics` removes every frame target and every COM target
together with their channels, so a subsequent `compute` publishes only on
the three whole-body channels; the row views, the freeflyer flag and the
three whole-body channels (as well as path, device, transport handle and
topic root) are left unchanged. -/
theorem C9_resetTopics_clears_targets_only (st : DiscretizationState) :
    (Discretization.resetTopics st).frames = [] ∧
    (Discretization.resetTopics st).coms = [] ∧
    (Discretization.resetTopics st).qView = st.qView ∧
    (Discretization.resetTopics st).vView = st.vView ∧
    (Discretization.resetTopics st).hasFreeflyer = st.hasFreeflyer ∧
    (Discretization.resetTopics st).wbPubQ = st.wbPubQ ∧
    (Discretization.resetTopics st).wbPubV = st.wbPubV ∧
    (Discretization.resetTopics st).wbPubA = st.wbPubA ∧
    (Discretization.resetTopics st).path = st.path ∧
    (Discretization.resetTopics st).device = st.device ∧
    (Discretization.resetTopics st).handle = st.handle ∧
    (Discretization.resetTopics st).topicBase = st.topicBase ∧
    (∀ t : Scalar, ∀ e ∈ (Discretization.compute (Discretization.resetTopics st) t).1,
      e.1 = Channel.wholeQ ∨ e.1 = Channel.wholeV ∨ e.1 = Channel.wholeA) := by
  refine ⟨rfl, rfl, rfl, rfl, rfl, rfl, rfl, rfl, rfl, rfl, rfl, rfl, ?_⟩
  intro t e he
  simp only [Discretization.compute, Discretization.resetTopics] at he
  cases hp : st.path with
  | none => simp [hp] at he
  | some p =>
    cases hq : p.eval t with
    | none => simp [hp, hq] at he
    | some q0 =>
      simp only [hp, hq, frameEvents, comEvents, List.map_nil, List.flatten_nil,
        List.append_nil, List.nil_append] at he
      simp only [List.mem_cons, List.not_mem_nil, or_false] at he
      rcases he with h | h | h <;> simp [h]

/-- Witness for C9: after `resetTopics` on a state with one frame target
and one COM target, the position message is still published and is on a
whole-body channel. -/
theorem C9_resetTopics_clears_targets_only_witness :
    (Channel.wholeQ, Msg.vec [10, 11, 12]) ∈
      (Discretization.compute (Discretization.resetTopics targetsState) 0).1 ∧
    (((Channel.wholeQ, Msg.vec [10, 11, 12]) : Event).1 = Channel.wholeQ ∨
     ((Channel.wholeQ, Msg.vec [10, 11, 12]) : Event).1 = Channel.wholeV ∨
     ((Channel.wholeQ, Msg.vec [10, 11, 12]) : Event).1 = Channel.wholeA) :=
  ⟨by decide,
   (C9_resetTopics_clears_targets_only targetsState).2.2.2.2.2.2.2.2.2.2.2.2
     0 (Channel.wholeQ, Msg.vec [10, 11, 12]) (by decide)⟩

/-- C3, evaluated at the failing input: the claim says the Acceleration
bit of a COM target's mode is a no-op that does not change the other
outputs, with position computed and published whenever the Position bit is
set, for every mode containing it.  The code's `COM::compute` switch only
matches the four enumerator values, so for the reachable merged mode
`Position ||| Acceleration = 5` it requests no computation at all —
the position publish that follows then carries a stale payload, while
mode `Position` alone publishes the freshly computed position.  The
Acceleration bit is therefore not a no-op and the code contradicts the
spec's stated intent. -/
theorem C3_acceleration_bit_not_noop :
    comComputeCall Position = some ComFlag.COM ∧
    comComputeCall Derivative = some ComFlag.VELOCITY ∧
    comComputeCall PositionAndDerivative = some ComFlag.COMPUTE_ALL ∧
    (Position ||| Acceleration) &&& Position ≠ 0 ∧
    comComputeCall (Position ||| Acceleration) = none ∧
    (Discretization.compute comBugState 0).2 = none ∧
    (Channel.comPos 0, Msg.stale3) ∈ (Discretization.compute comBugState 0).1 ∧
    (Channel.comPos 0, Msg.vec3 ⟨10, 0, 0⟩) ∈ (Discretization.compute comOkState 0).1 := by
  decide

/-- C4: `setJointNames` resets the freeflyer flag and both row views and
rebuilds them from the names in order — a joint of one of the four
floating-base configuration-space types only sets the flag and contributes
no rows, every other joint appends its `(rankInConfiguration, configSize)`
range to the configuration view and its `(rankInVelocity, numberDof)`
range to the velocity view, and both views are finalized; consequently,
for subsets without a floating-base joint each view's total size is the
sum of the joints' configuration (resp. velocity) sizes, and extraction
from a full vector is the concatenation of the joints' slices, in
per-joint order and with the vector's values. -/
theorem C4_setJointNames_rebuilds_views (st : DiscretizationState)
    (names : List String) (js : List Joint)
    (hjs : lookupJoints st.device names = some js) :
    ∃ st', Discretization.setJointNames st names = some st' ∧
      st'.hasFreeflyer = js.any (fun j => j.configurationSpace.isFloating) ∧
      st'.qView = ⟨qRowsOf js⟩ ∧
      st'.vView = ⟨vRowsOf js⟩ ∧
      ((∀ j ∈ js, j.configurationSpace.isFloating = false) →
        st'.qView.nbIndices = (js.map Joint.configSize).sum ∧
        st'.vView.nbIndices = (js.map Joint.numberDof).sum ∧
        (∀ x : Vec, (∀ j ∈ js, j.rankInConfiguration + j.configSize ≤ x.length) →
          st'.qView.rview x =
            (js.map (fun j => (x.drop j.rankInConfiguration).take j.configSize)).flatten) ∧
        (∀ x : Vec, (∀ j ∈ js, j.rankInVelocity + j.numberDof ≤ x.length) →
          st'.vView.rview x =
            (js.map (fun j => (x.drop j.rankInVelocity).take j.numberDof)).flatten)) := by
  rw [setJointNames_eq st names, hjs]
  refine ⟨_, rfl, rfl, rfl, rfl, ?_⟩
  intro hnf
  have hfil : nonFloating js = js :=
    List.filter_eq_self.mpr (fun j hj => by simp [hnf j hj])
  refine ⟨?_, ?_, ?_, ?_⟩
  · simp only [RowBlockIndices.nbIndices, qRowsOf, hfil, List.map_map]
    rfl
  · simp only [RowBlockIndices.nbIndices, vRowsOf, hfil, List.map_map]
    rfl
  · intro x hx
    simp only [RowBlockIndices.rview, qRowsOf, hfil, List.map_map]
    congr 1
    refine List.map_congr_left ?_
    intro j hj
    exact segment_eq_slice x j.rankInConfiguration j.configSize (hx j hj)
  · intro x hx
    simp only [RowBlockIndices.rview, vRowsOf, hfil, List.map_map]
    congr 1
    refine List.map_congr_left ?_
    intro j hj
    exact segment_eq_slice x j.rankInVelocity j.numberDof (hx j hj)

/-- Witness for C4: the two-joint subset of `sampleDevice` (sizes 1 and 2,
no floating joint) yields views of total size 3 whose extraction from a
full vector is the per-joint concatenation of its values. -/
theorem C4_setJointNames_rebuilds_views_witness :
    ∃ st', Discretization.setJointNames sampleState ["A", "B"] = some st' ∧
      st'.hasFreeflyer = false ∧
      st'.qView.nbIndices = 3 ∧
      st'.vView.nbIndices = 3 ∧
      st'.qView.rview [10, 11, 12] = [10, 11, 12] := by
  obtain ⟨st', h, hff, hq, hv, hrest⟩ :=
    C4_setJointNames_rebuilds_views sampleState ["A", "B"] [jointA, jointB] (by decide)
  obtain ⟨hs1, hs2, hext, -⟩ := hrest (by decide)
  refine ⟨st', h, by rw [hff]; decide, by rw [hs1]; decide, by rw [hs2]; decide, ?_⟩
  rw [hext [10, 11, 12] (by decide)]
  decide

/-- C10 (implicit): whenever the freeflyer flag is set, the 6-scalar
floating-base prefix of the whole-body position message is read from the
world placement of the model's joint at the fixed index 1 (`oMi[1]`) —
for every state with the flag set, hence regardless of which configured
joint matched a floating-base type; and `setJointNames` records of the
floating joints nothing but the boolean flag: the produced state consists
of that flag and of row views built from the non-floating joints alone. -/
theorem C10_freeflyer_prefix_reads_oMi1 (st : DiscretizationState) (t : Scalar)
    (p : Path) (q0 : Vec) (hp : st.path = some p) (hq : p.eval t = some q0)
    (hff : st.hasFreeflyer = true) :
    (∃ rest, Discretization.compute st t =
      ((Channel.wholeQ, Msg.vec
        (((st.device.fk (resizeVec q0 st.device.configSize)
            (resizeVec (p.derivative t 1) st.device.numberDof)).oMi 1).translation.toList ++
         ((st.device.fk (resizeVec q0 st.device.configSize)
            (resizeVec (p.derivative t 1) st.device.numberDof)).oMi 1).eulerZYX.toList ++
         st.qView.rview (resizeVec q0 st.device.configSize))) :: rest, none)) ∧
    (∀ names js, lookupJoints st.device names = some js →
      ∀ st', Discretization.setJointNames st names = some st' →
        st'.hasFreeflyer = js.any (fun j => j.configurationSpace.isFloating) ∧
        st'.qView = ⟨qRowsOf js⟩ ∧ st'.vView = ⟨vRowsOf js⟩) := by
  constructor
  · refine ⟨(Channel.wholeV, Msg.vec (List.replicate 6 0 ++
        st.vView.rview (resizeVec (p.derivative t 1) st.device.numberDof))) ::
      (Channel.wholeA, Msg.vec (List.replicate 6 0 ++
        st.vView.rview (resizeVec (p.derivative t 2) st.device.numberDof))) ::
      (frameEvents (st.device.fk (resizeVec q0 st.device.configSize)
        (resizeVec (p.derivative t 1) st.device.numberDof)) st.frames ++
      comEvents st.device (resizeVec q0 st.device.configSize)
        (resizeVec (p.derivative t 1) st.device.numberDof) st.coms), ?_⟩
    simp [Discretization.compute, hp, hq, hff, ffPosData, List.append_assoc]
  · intro names js hjs st' hset
    rw [setJointNames_eq st names, hjs] at hset
    simp only [Option.map_some', Option.some.injEq] at hset
    subst hset
    exact ⟨rfl, rfl, rfl⟩

/-- Witness for C10: on the concrete freeflyer state the position message
starts with translation and Euler angles of `oMi[1]` followed by the
revolute joint's configuration value. -/
theorem C10_freeflyer_prefix_reads_oMi1_witness :
    (∃ rest, Discretization.compute ffState 0 =
      ((Channel.wholeQ, Msg.vec
        (((ffState.device.fk (resizeVec [0, 0, 0, 0, 0, 0, 1, 42] ffState.device.configSize)
            (resizeVec (ffPath.derivative 0 1) ffState.device.numberDof)).oMi 1).translation.toList ++
         ((ffState.device.fk (resizeVec [0, 0, 0, 0, 0, 0, 1, 42] ffState.device.configSize)
            (resizeVec (ffPath.derivative 0 1) ffState.device.numberDof)).oMi 1).eulerZYX.toList ++
         ffState.qView.rview (resizeVec [0, 0, 0, 0, 0, 0, 1, 42] ffState.device.configSize))) ::
        rest, none)) ∧
    ((ffState.device.fk (resizeVec [0, 0, 0, 0, 0, 0, 1, 42] ffState.device.configSize)
        (resizeVec (ffPath.derivative 0 1) ffState.device.numberDof)).oMi 1).translation.toList ++
      ((ffState.device.fk (resizeVec [0, 0, 0, 0, 0, 0, 1, 42] ffState.device.configSize)
        (resizeVec (ffPath.derivative 0 1) ffState.device.numberDof)).oMi 1).eulerZYX.toList ++
      ffState.qView.rview (resizeVec [0, 0, 0, 0, 0, 0, 1, 42] ffState.device.configSize) =
      [5, 6, 7, 11, 12, 13, 42] :=
  ⟨(C10_freeflyer_prefix_reads_oMi1 ffState 0 ffPath [0, 0, 0, 0, 0, 0, 1, 42]
      rfl rfl rfl).1,
   by decide⟩

/-- C6: registering the same frame name twice (on a state where that frame
is not yet a target) yields exactly one target for it whose mode is the
bitwise OR of the two modes — in particular, the same mode twice leaves one
target with that mode, and `Position` then `Derivative` leaves one target
with mode `Position ||| Derivative`; moreover any registration only ever
widens: an existing target never loses a previously enabled mode bit. -/
theorem C6_addOperationalFrame_or_merge (st : DiscretizationState) (name : String)
    (m1 m2 : Nat) (hh : st.handle = true)
    (hex : st.device.existFrame name = true)
    (hnone : ∀ ft ∈ st.frames, ft.index ≠ st.device.getFrameId name) :
    (∃ st1 st2,
      Discretization.addOperationalFrame st name m1 = .ok (st1, true) ∧
      Discretization.addOperationalFrame st1 name m2 = .ok (st2, true) ∧
      (st2.frames.filter (fun ft => ft.index == st.device.getFrameId name)).length = 1 ∧
      (∀ ft ∈ st2.frames, ft.index = st.device.getFrameId name →
        ft.option = m1 ||| m2)) ∧
    (∀ name' m' st' b, Discretization.addOperationalFrame st name' m' = .ok (st', b) →
      ∀ ft ∈ st.frames, ∃ ft' ∈ st'.frames, ft'.index = ft.index ∧
        ft.option &&& ft'.option = ft.option) := by
  constructor
  · have h1 : mergeFrameTarget st.topicBase name (st.device.getFrameId name) m1 st.frames
        = none := mergeFrameTarget_none _ _ _ _ _ hnone
    have h2 : mergeFrameTarget st.topicBase name (st.device.getFrameId name) m2
        (st.frames ++ [FrameTarget.initPublishers
          ⟨st.device.getFrameId name, m1, none, none⟩ st.topicBase name]) =
        some (st.frames ++ [FrameTarget.initPublishers
          { FrameTarget.initPublishers
              ⟨st.device.getFrameId name, m1, none, none⟩ st.topicBase name with
            option := m1 ||| m2 } st.topicBase name]) :=
      mergeFrameTarget_append_last _ _ _ _ _ _ hnone rfl
    refine ⟨{ st with frames := st.frames ++ [FrameTarget.initPublishers
        ⟨st.device.getFrameId name, m1, none, none⟩ st.topicBase name] },
      { st with frames := st.frames ++ [FrameTarget.initPublishers
        { FrameTarget.initPublishers
            ⟨st.device.getFrameId name, m1, none, none⟩ st.topicBase name with
          option := m1 ||| m2 } st.topicBase name] }, ?_, ?_, ?_, ?_⟩
    · unfold Discretization.addOperationalFrame
      rw [if_neg (by simp [hh]), if_neg (by simp [hex]), h1]
    · unfold Discretization.addOperationalFrame
      dsimp only
      rw [if_neg (by simp [hh]), if_neg (by simp [hex]), h2]
    · dsimp only
      rw [List.filter_append]
      have hz : st.frames.filter
          (fun ft => ft.index == st.device.getFrameId name) = [] := by
        rw [List.filter_eq_nil_iff]
        intro ft hft
        simp [hnone ft hft]
      rw [hz]
      simp
    · dsimp only
      intro ft hft hidx
      rcases List.mem_append.mp hft with hft | hft
      · exact absurd hidx (hnone ft hft)
      · rcases List.mem_singleton.mp hft with rfl
        rfl
  · exact fun name' m' st' b h => addOperationalFrame_mono st name' m' st' b h

/-- Witness for C6: on `sampleState` (no targets yet), registering frame
`"tool"` with `Position` then with `Derivative` leaves a single target of
mode `Position ||| Derivative = 3`. -/
theorem C6_addOperationalFrame_or_merge_witness :
    ∃ st1 st2,
      Discretization.addOperationalFrame sampleState "tool" Position = .ok (st1, true) ∧
      Discretization.addOperationalFrame st1 "tool" Derivative = .ok (st2, true) ∧
      (st2.frames.filter
        (fun ft => ft.index == sampleState.device.getFrameId "tool")).length = 1 ∧
      (∀ ft ∈ st2.frames, ft.index = sampleState.device.getFrameId "tool" →
        ft.option = Position ||| Derivative) :=
  (C6_addOperationalFrame_or_merge sampleState "tool" Position Derivative rfl
    (by decide) (by decide)).1

/-- C7: `addCenterOfMass` always returns success once the transport is
initialized (there is no existence check on the name); two registrations
with distinct names but the same computation handle (reference equality)
collapse into a single target whose mode is the union of the two modes and
whose channels are (re)advertised under the name given last. -/
theorem C7_addCenterOfMass_keyed_by_handle (st : DiscretizationState)
    (n1 n2 : String) (c m1 m2 : Nat) (hh : st.handle = true)
    (hnone : ∀ ct ∈ st.coms, ct.com ≠ c) :
    (∀ name c' m, ∃ st',
      Discretization.addCenterOfMass st name c' m = .ok (st', true)) ∧
    (∃ st1 st2,
      Discretization.addCenterOfMass st n1 c m1 = .ok (st1, true) ∧
      Discretization.addCenterOfMass st1 n2 c m2 = .ok (st2, true) ∧
      (st2.coms.filter (fun ct => ct.com == c)).length = 1 ∧
      (∀ ct ∈ st2.coms, ct.com = c →
        ct.option = m1 ||| m2 ∧
        ct.pubQ = (if (m1 ||| m2) &&& Position ≠ 0
          then some (st.topicBase ++ "com/" ++ n2) else none) ∧
        ct.pubV = (if (m1 ||| m2) &&& Derivative ≠ 0
          then some (st.topicBase ++ "velocity/com/" ++ n2) else none))) := by
  constructor
  · intro name c' m
    unfold Discretization.addCenterOfMass
    rw [if_neg (by simp [hh])]
    cases hm : mergeComTarget st.topicBase name c' m st.coms with
    | some coms' => exact ⟨_, rfl⟩
    | none => exact ⟨_, rfl⟩
  · have h1 : mergeComTarget st.topicBase n1 c m1 st.coms = none :=
      mergeComTarget_none _ _ _ _ _ hnone
    have h2 : mergeComTarget st.topicBase n2 c m2
        (st.coms ++ [COMTarget.initPublishers ⟨c, m1, none, none⟩ st.topicBase n1]) =
        some (st.coms ++ [COMTarget.initPublishers
          { COMTarget.initPublishers ⟨c, m1, none, none⟩ st.topicBase n1 with
            option := m1 ||| m2 } st.topicBase n2]) :=
      mergeComTarget_append_last _ _ _ _ _ _ hnone rfl
    refine ⟨{ st with coms := st.coms ++
        [COMTarget.initPublishers ⟨c, m1, none, none⟩ st.topicBase n1] },
      { st with coms := st.coms ++ [COMTarget.initPublishers
        { COMTarget.initPublishers ⟨c, m1, none, none⟩ st.topicBase n1 with
          option := m1 ||| m2 } st.topicBase n2] }, ?_, ?_, ?_, ?_⟩
    · unfold Discretization.addCenterOfMass
      rw [if_neg (by simp [hh]), h1]
    · unfold Discretization.addCenterOfMass
      dsimp only
      rw [if_neg (by simp [hh]), h2]
    · dsimp only
      rw [List.filter_append]
      have hz : st.coms.filter (fun ct => ct.com == c) = [] := by
        rw [List.filter_eq_nil_iff]
        intro ct hct
        simp [hnone ct hct]
      rw [hz]
      simp
    · dsimp only
      intro ct hct hc
      rcases List.mem_append.mp hct with hct | hct
      · exact absurd hc (hnone ct hct)
      · rcases List.mem_singleton.mp hct with rfl
        refine ⟨rfl, ?_, ?_⟩
        · by_cases hP : (m1 ||| m2) &&& Position = 0
          · have hm1 : m1 &&& Position = 0 := nat_and_zero_of_or m1 m2 Position hP
            simp [COMTarget.initPublishers, hP, hm1]
          · simp [COMTarget.initPublishers, hP]
        · by_cases hD : (m1 ||| m2) &&& Derivative = 0
          · have hm1 : m1 &&& Derivative = 0 := nat_and_zero_of_or m1 m2 Derivative hD
            simp [COMTarget.initPublishers, hD, hm1]
          · simp [COMTarget.initPublishers, hD]

/-- Witness for C7: on `sampleState` (no COM targets yet), registering
handle 9 under name `"c1"` with `Position` and then under name `"c2"` with
`Derivative` leaves a single target of mode 3 whose channels carry the
name given last. -/
theorem C7_addCenterOfMass_keyed_by_handle_witness :
    ∃ st1 st2,
      Discretization.addCenterOfMass sampleState "c1" 9 Position = .ok (st1, true) ∧
      Discretization.addCenterOfMass st1 "c2" 9 Derivative = .ok (st2, true) ∧
      (st2.coms.filter (fun ct => ct.com == 9)).length = 1 ∧
      (∀ ct ∈ st2.coms, ct.com = 9 →
        ct.option = Position ||| Derivative ∧
        ct.pubQ = (if (Position ||| Derivative) &&& Position ≠ 0
          then some (sampleState.topicBase ++ "com/" ++ "c2") else none) ∧
        ct.pubV = (if (Position ||| Derivative) &&& Derivative ≠ 0
          then some (sampleState.topicBase ++ "velocity/com/" ++ "c2") else none)) :=
  (C7_addCenterOfMass_keyed_by_handle sampleState "c1" "c2" 9 Position Derivative
    rfl (by decide)).2

/-- The first six entries of a freeflyer position message are the
translation followed by the Euler angles. -/
theorem take6_ffPosData (root : SE3) (r : Vec) :
    (ffPosData true root ++ r).take 6 =
      root.translation.toList ++ root.eulerZYX.toList := rfl

/-- The entries of a freeflyer position message after the first six are
the row-view extraction. -/
theorem drop6_ffPosData (root : SE3) (r : Vec) :
    (ffPosData true root ++ r).drop 6 = r := rfl

theorem take6_zeros (r : Vec) :
    (List.replicate 6 (0 : Scalar) ++ r).take 6 = List.replicate 6 0 := rfl

theorem drop6_zeros (r : Vec) :
    (List.replicate 6 (0 : Scalar) ++ r).drop 6 = r := rfl

/-- C2: every successful `compute(t)` publishes, on three distinct
channels, flat numeric vectors of length `(freeflyer ? 6 : 0)` plus the
row-view size — the position message over the configuration row view,
velocity and acceleration over the velocity row view; when the freeflyer
flag is set the position message's first 6 scalars are the floating
joint's world translation followed by the Z,Y,X Euler decomposition of its
rotation and the rest is the row-view extraction of the sampled
configuration, while the velocity and acceleration messages carry a
zero-filled 6-scalar prefix before their row-view extractions. -/
theorem C2_whole_body_message_layout (st : DiscretizationState) (t : Scalar)
    (p : Path) (q0 : Vec) (hp : st.path = some p) (hq : p.eval t = some q0) :
    ∃ P V A rest,
      Discretization.compute st t =
        ((Channel.wholeQ, Msg.vec P) :: (Channel.wholeV, Msg.vec V) ::
         (Channel.wholeA, Msg.vec A) :: rest, none) ∧
      Channel.wholeQ ≠ Channel.wholeV ∧
      Channel.wholeV ≠ Channel.wholeA ∧
      Channel.wholeQ ≠ Channel.wholeA ∧
      P.length = (if st.hasFreeflyer then 6 else 0) + st.qView.nbIndices ∧
      V.length = (if st.hasFreeflyer then 6 else 0) + st.vView.nbIndices ∧
      A.length = (if st.hasFreeflyer then 6 else 0) + st.vView.nbIndices ∧
      (st.hasFreeflyer = true →
        P.take 6 =
          ((st.device.fk (resizeVec q0 st.device.configSize)
            (resizeVec (p.derivative t 1) st.device.numberDof)).oMi 1).translation.toList ++
          ((st.device.fk (resizeVec q0 st.device.configSize)
            (resizeVec (p.derivative t 1) st.device.numberDof)).oMi 1).eulerZYX.toList ∧
        P.drop 6 = st.qView.rview (resizeVec q0 st.device.configSize) ∧
        V.take 6 = List.replicate 6 0 ∧
        V.drop 6 = st.vView.rview (resizeVec (p.derivative t 1) st.device.numberDof) ∧
        A.take 6 = List.replicate 6 0 ∧
        A.drop 6 = st.vView.rview (resizeVec (p.derivative t 2) st.device.numberDof)) ∧
      (st.hasFreeflyer = false →
        P = st.qView.rview (resizeVec q0 st.device.configSize) ∧
        V = st.vView.rview (resizeVec (p.derivative t 1) st.device.numberDof) ∧
        A = st.vView.rview (resizeVec (p.derivative t 2) st.device.numberDof)) := by
  refine ⟨ffPosData st.hasFreeflyer
      ((st.device.fk (resizeVec q0 st.device.configSize)
        (resizeVec (p.derivative t 1) st.device.numberDof)).oMi 1) ++
      st.qView.rview (resizeVec q0 st.device.configSize),
    List.replicate (if st.hasFreeflyer then 6 else 0) 0 ++
      st.vView.rview (resizeVec (p.derivative t 1) st.device.numberDof),
    List.replicate (if st.hasFreeflyer then 6 else 0) 0 ++
      st.vView.rview (resizeVec (p.derivative t 2) st.device.numberDof),
    frameEvents (st.device.fk (resizeVec q0 st.device.configSize)
        (resizeVec (p.derivative t 1) st.device.numberDof)) st.frames ++
      comEvents st.device (resizeVec q0 st.device.configSize)
        (resizeVec (p.derivative t 1) st.device.numberDof) st.coms,
    ?_, by decide, by decide, by decide, ?_, ?_, ?_, ?_, ?_⟩
  · simp only [Discretization.compute, hp, hq]
  · simp [ffPosData_length, RowBlockIndices.rview_length]
  · simp [RowBlockIndices.rview_length]
  · simp [RowBlockIndices.rview_length]
  · intro hff
    rw [hff]
    exact ⟨take6_ffPosData _ _, drop6_ffPosData _ _, take6_zeros _, drop6_zeros _,
      take6_zeros _, drop6_zeros _⟩
  · intro hff
    rw [hff]
    exact ⟨rfl, rfl, rfl⟩

/-- Witness for C2: on the concrete freeflyer state all three whole-body
messages have length `6 + 1 = 7` and the position message opens with
translation and Euler angles of `oMi[1]`. -/
theorem C2_whole_body_message_layout_witness :
    ∃ P V A rest,
      Discretization.compute ffState 0 =
        ((Channel.wholeQ, Msg.vec P) :: (Channel.wholeV, Msg.vec V) ::
         (Channel.wholeA, Msg.vec A) :: rest, none) ∧
      P.length = 7 ∧ V.length = 7 ∧ A.length = 7 ∧
      P.take 6 = [5, 6, 7, 11, 12, 13] := by
  obtain ⟨P, V, A, rest, hc, -, -, -, hP, hV, hA, hff, -⟩ :=
    C2_whole_body_message_layout ffState 0 ffPath [0, 0, 0, 0, 0, 0, 1, 42] rfl rfl
  obtain ⟨htake, -⟩ := hff rfl
  refine ⟨P, V, A, rest, hc, ?_, ?_, ?_, ?_⟩
  · rw [hP]; decide
  · rw [hV]; decide
  · rw [hA]; decide
  · rw [htake]; decide

end Agimus
